import Mathlib

/-!
Verification of the mDNS / WebSocket Matter server (Go sources) against its
natural-language specification.

The Go code is embedded shallowly:

* byte buffers (`[]byte`) are `List Nat` with every element below 256;
* DNS names: the Go code stores a name as a dotted `string` and converts with
  `strings.Split(name, ".")` / `strings.Join(labels, ".")`.  Since Go strings
  are plain byte strings, a name is embedded as its list of labels, each label
  a byte list (`List (List Nat)`); the split/join glue is the bijection
  between dotted strings with dot-free labels and such label lists, so all
  structural statements are made on the label lists directly;
* machine integers (`uint8/uint16/uint32/int`) are `Nat`/`Int` with explicit
  `% 256` (`byte(x)` conversions) where Go truncates;
* the Go runtime panic on an out-of-bounds slice index is the explicit
  `DNSParse.panicOOB` outcome, and a `for` loop with no structural bound is
  run on fuel, `none` meaning the loop has not finished within the given
  fuel (for every fuel) — i.e. divergence.
-/

namespace GoMatterServer

/-- Outcome of a Go function that can return a value, return a parse error
(`fmt.Errorf`), or hit a runtime index-out-of-range panic. -/
inductive DNSParse (α : Type) where
  | ok (val : α)
  | parseError
  | panicOOB
deriving DecidableEq, Repr

/-- Embedding of Go `buf[i]` in a context where the index has already been
checked: `getD` with default 0 (the default is never used at checked call
sites). -/
def byteAt (buf : List Nat) (i : Nat) : Nat :=
  buf.getD i 0

/-- Go `byte(x)` conversion: truncation to the low 8 bits. -/
def goByte (x : Nat) : Nat :=
  x % 256

/-- DNS constants from `internal/mdns/server.go`. -/
def dnsTypeA : Nat := 1

def dnsTypeAAAA : Nat := 28

def dnsTypePTR : Nat := 12

def dnsTypeTXT : Nat := 16

def dnsTypeSRV : Nat := 33

/-- Go struct `dnsQuestion` (`internal/mdns/server.go`).  `Name` is the label
list of the dotted name string. -/
structure dnsQuestion where
  Name : List (List Nat)
  Qtype : Nat
  Qclass : Nat
deriving DecidableEq, Repr

/-- Go struct `dnsRecord` (`internal/mdns/server.go`). -/
structure dnsRecord where
  Name : List (List Nat)
  Rtype : Nat
  Rclass : Nat
  TTL : Nat
  Rdata : List Nat
deriving DecidableEq, Repr

/-- Go struct `dnsMessage` (`internal/mdns/server.go`). -/
structure dnsMessage where
  ID : Nat
  Response : Bool
  Opcode : Nat
  Authoritative : Bool
  Truncated : Bool
  RecursionDesired : Bool
  RecursionAvailable : Bool
  Rcode : Nat
  Questions : List dnsQuestion
  Answers : List dnsRecord
deriving DecidableEq, Repr

/-- One pass of the `for offset < len(buf)` loop of Go `parseName`
(`internal/mdns/server.go`), with the loop state (`offset`, `jumped`,
`original`, the accumulated labels `name`) passed explicitly and the
iteration count bounded by `fuel`.

The Go loop body, in order:
* `length := int(buf[offset])` — in bounds by the loop condition;
* `length == 0`: `offset++` and `break`;
* `length&0xc0 == 0xc0` (compression pointer): record `original = offset+2`
  on the first jump, then `offset = int(buf[offset]&0x3f)<<8 | int(buf[offset+1])`.
  The read of `buf[offset+1]` is NOT bounds-checked in the source; when
  `offset+1` is out of range the Go runtime panics, embedded as `panicOOB`;
* otherwise a literal label: reject when `offset+1+length >= len(buf)`,
  else append `buf[offset+1:offset+1+length]` and advance.

After the loop, `if !jumped { original = offset }` and the accumulated
labels are returned together with `original`. -/
def parseNameLoop (buf : List Nat) :
    Nat → Nat → Bool → Nat → List (List Nat) →
      Option (DNSParse (List (List Nat) × Nat))
  | 0, _, _, _, _ => none
  | fuel + 1, offset, jumped, original, name =>
    if offset < buf.length then
      if byteAt buf offset = 0 then
        some (.ok (name, if jumped then original else offset + 1))
      else if byteAt buf offset &&& 0xc0 = 0xc0 then
        match buf.get? (offset + 1) with
        | none => some .panicOOB
        | some b2 =>
          parseNameLoop buf fuel ((byteAt buf offset &&& 0x3f) <<< 8 ||| b2) true
            (if jumped then original else offset + 2) name
      else if buf.length ≤ offset + 1 + byteAt buf offset then
        some .parseError
      else
        parseNameLoop buf fuel (offset + 1 + byteAt buf offset) jumped original
          (name ++ [(buf.drop (offset + 1)).take (byteAt buf offset)])
    else
      some (.ok (name, if jumped then original else offset))

/-- Go `parseName(buf, offset)` (`internal/mdns/server.go`): the loop above
started with `original := offset`, `jumped := false` and no labels. -/
def parseName (buf : List Nat) (offset : Nat) (fuel : Nat) :
    Option (DNSParse (List (List Nat) × Nat)) :=
  parseNameLoop buf fuel offset false offset []

/-- The question-section loop of Go `parseDNSMessage`
(`internal/mdns/server.go`): `qdCount` iterations, each parsing a name and
then the 4 fixed question bytes (checked by `newOffset+4 > len(buf)`). -/
def parseQuestions (buf : List Nat) (fuel : Nat) :
    Nat → Nat → List dnsQuestion → Option (DNSParse (List dnsQuestion))
  | 0, _, acc => some (.ok acc)
  | count + 1, offset, acc =>
    match parseName buf offset fuel with
    | none => none
    | some .panicOOB => some .panicOOB
    | some .parseError => some .parseError
    | some (.ok (labels, newOffset)) =>
      if buf.length < newOffset + 4 then
        some .parseError
      else
        let q : dnsQuestion :=
          { Name := labels
            Qtype := byteAt buf newOffset <<< 8 ||| byteAt buf (newOffset + 1)
            Qclass := byteAt buf (newOffset + 2) <<< 8 ||| byteAt buf (newOffset + 3) }
        parseQuestions buf fuel count (newOffset + 4) (acc ++ [q])

/-- Go `parseDNSMessage(buf)` (`internal/mdns/server.go`): reject buffers of
fewer than 12 bytes, decode the header fields from bytes 0–3, read `qdCount`
from bytes 4–5, and parse exactly the question section.  Bytes 6–7 (answer
count) and the answer records themselves are never read; the returned
message always has `Answers = []`. -/
def parseDNSMessage (buf : List Nat) (fuel : Nat) : Option (DNSParse dnsMessage) :=
  if buf.length < 12 then
    some .parseError
  else
    match parseQuestions buf fuel (byteAt buf 4 <<< 8 ||| byteAt buf 5) 12 [] with
    | none => none
    | some .panicOOB => some .panicOOB
    | some .parseError => some .parseError
    | some (.ok qs) =>
      some (.ok
        { ID := byteAt buf 0 <<< 8 ||| byteAt buf 1
          Response := byteAt buf 2 &&& 0x80 ≠ 0
          Opcode := (byteAt buf 2 >>> 3) &&& 0x0f
          Authoritative := byteAt buf 2 &&& 0x04 ≠ 0
          Truncated := byteAt buf 2 &&& 0x02 ≠ 0
          RecursionDesired := byteAt buf 2 &&& 0x01 ≠ 0
          RecursionAvailable := byteAt buf 3 &&& 0x80 ≠ 0
          Rcode := byteAt buf 3 &&& 0x0f
          Questions := qs
          Answers := [] })

/-- The label-writing loop of Go `encodeName` (`internal/mdns/server.go`):
for each part of the split name, skip empty parts, otherwise write
`byte(len(part))` followed by the label bytes.  (The Go fast path for the
name `"."` returns `[]byte{0}`, which coincides with the general path on the
corresponding label list.) -/
def encodeNameBody : List (List Nat) → List Nat
  | [] => []
  | part :: rest =>
    (if part ≠ [] then goByte part.length :: part else []) ++ encodeNameBody rest

/-- Go `encodeName(name)` (`internal/mdns/server.go`): the written labels
followed by the terminating zero byte. -/
def encodeName (labels : List (List Nat)) : List Nat :=
  encodeNameBody labels ++ [0]

/-- Byte 2 of the header written by Go `encodeDNSMessage`: the successive
`buf[2] |= …` writes for Response, Opcode, Authoritative, Truncated and
RecursionDesired. -/
def flagsByte2 (response : Bool) (opcode : Nat) (auth trunc rd : Bool) : Nat :=
  let b := if response then 0 ||| 0x80 else 0
  let b := b ||| ((opcode &&& 0x0f) <<< 3)
  let b := if auth then b ||| 0x04 else b
  let b := if trunc then b ||| 0x02 else b
  if rd then b ||| 0x01 else b

/-- Byte 3 of the header written by Go `encodeDNSMessage`: RecursionAvailable
and Rcode. -/
def flagsByte3 (ra : Bool) (rcode : Nat) : Nat :=
  (if ra then 0 ||| 0x80 else 0) ||| (rcode &&& 0x0f)

/-- Bytes appended for one question by Go `encodeDNSMessage`. -/
def encodeQuestion (q : dnsQuestion) : List Nat :=
  encodeName q.Name ++
    [goByte (q.Qtype >>> 8), goByte q.Qtype, goByte (q.Qclass >>> 8), goByte q.Qclass]

/-- Bytes appended for one answer record by Go `encodeDNSMessage`. -/
def encodeRecord (r : dnsRecord) : List Nat :=
  encodeName r.Name ++
    [goByte (r.Rtype >>> 8), goByte r.Rtype, goByte (r.Rclass >>> 8), goByte r.Rclass] ++
    [goByte (r.TTL >>> 24), goByte (r.TTL >>> 16), goByte (r.TTL >>> 8), goByte r.TTL] ++
    [goByte (r.Rdata.length >>> 8), goByte r.Rdata.length] ++ r.Rdata

/-- Go `encodeDNSMessage(msg)` (`internal/mdns/server.go`): the 12-byte
header (bytes 8–11, the NS and AR counts, stay zero), then the encoded
questions, then the encoded answers. -/
def encodeDNSMessage (msg : dnsMessage) : List Nat :=
  [goByte (msg.ID >>> 8), goByte msg.ID,
   flagsByte2 msg.Response msg.Opcode msg.Authoritative msg.Truncated msg.RecursionDesired,
   flagsByte3 msg.RecursionAvailable msg.Rcode,
   goByte (msg.Questions.length >>> 8), goByte msg.Questions.length,
   goByte (msg.Answers.length >>> 8), goByte msg.Answers.length,
   0, 0, 0, 0] ++
    msg.Questions.foldl (fun b q => b ++ encodeQuestion q) [] ++
    msg.Answers.foldl (fun b r => b ++ encodeRecord r) []

/-- Failing packet for the unchecked pointer read: a 12-byte header with
`qdCount = 1` followed by the single byte `0xc0`, so the second pointer byte
would sit just past the end of the buffer. -/
def bufPtrAtEnd : List Nat :=
  [0, 0, 0, 0, 0, 1, 0, 0, 0, 0, 0, 0, 0xc0]

/-- Failing packet for pointer cycles: a 12-byte header with `qdCount = 1`
followed by the pointer `0xc0 0x0c`, whose 14-bit target is offset 12 — the
pointer itself. -/
def bufSelfPtr : List Nat :=
  [0, 0, 0, 0, 0, 1, 0, 0, 0, 0, 0, 0, 0xc0, 0x0c]

/-- C1: the claim that every dereferenced offset, including the second byte
of a name-compression pointer at `offset+1`, is bounds-checked is FALSE on
the code: on a packet whose last byte is a pointer marker, `parseName` reads
`buf[offset+1]` one past the end of the buffer (a Go runtime panic, not a
parse error), and `parseDNSMessage` propagates the panic. -/
theorem parseName_unchecked_pointer_byte_panics :
    parseName bufPtrAtEnd 12 1 = some DNSParse.panicOOB ∧
      parseDNSMessage bufPtrAtEnd 8 = some DNSParse.panicOOB := by
  decide

/-- On the self-pointing packet the loop state returns to itself: one
iteration at offset 12 jumps back to offset 12, for any `jumped`/`original`/
accumulator, so no amount of fuel finishes the loop. -/
theorem parseNameLoop_selfptr_diverges (fuel : Nat) :
    ∀ (jumped : Bool) (original : Nat) (name : List (List Nat)),
      parseNameLoop bufSelfPtr fuel 12 jumped original name = none := by
  induction fuel with
  | zero => intro j o n; rfl
  | succ k ih =>
    intro j o n
    exact ih true (if j then o else 12 + 2) n

/-- C7: the claim that `parseName` terminates on every input (returning a
name or a parse error on pointer cycles) is FALSE on the code: on a packet
whose compression pointer points at itself, the `parseName` loop runs
forever (no fuel suffices), and `parseDNSMessage` on that packet likewise
never returns. -/
theorem parseName_selfptr_never_returns (fuel : Nat) :
    parseName bufSelfPtr 12 fuel = none ∧ parseDNSMessage bufSelfPtr fuel = none := by
  have h : parseName bufSelfPtr 12 fuel = none :=
    parseNameLoop_selfptr_diverges fuel false 12 []
  refine ⟨h, ?_⟩
  have hq : parseQuestions bufSelfPtr fuel 1 12 [] = none := by
    show parseQuestions bufSelfPtr fuel (Nat.succ 0) 12 [] = none
    rw [parseQuestions, h]
  unfold parseDNSMessage
  rw [if_neg (by decide)]
  have hcount : byteAt bufSelfPtr 4 <<< 8 ||| byteAt bufSelfPtr 5 = 1 := by decide
  rw [hcount, hq]

/-- C9: `parseDNSMessage` decodes only the header and the question section;
whatever the input buffer (and whatever answer count its header bytes 6–7
encode), a successfully parsed message has an empty answer list. -/
theorem parseDNSMessage_answers_empty (buf : List Nat) (fuel : Nat) (msg : dnsMessage) :
    parseDNSMessage buf fuel = some (DNSParse.ok msg) → msg.Answers = [] := by
  intro h
  unfold parseDNSMessage at h
  split at h
  · simp at h
  · split at h <;> simp_all
    exact congrArg dnsMessage.Answers h.symm

/-- All-zero 12-byte header: a concrete packet that parses successfully. -/
def bufZeroHeader : List Nat :=
  [0, 0, 0, 0, 0, 0, 0, 0, 0, 0, 0, 0]

/-- The message parsed from the all-zero header. -/
def msgZeroHeader : dnsMessage :=
  { ID := 0, Response := false, Opcode := 0, Authoritative := false,
    Truncated := false, RecursionDesired := false, RecursionAvailable := false,
    Rcode := 0, Questions := [], Answers := [] }

/-- Witness for C9: the all-zero header parses successfully and the theorem
applies to it. -/
theorem parseDNSMessage_answers_empty_witness :
    parseDNSMessage bufZeroHeader 1 = some (DNSParse.ok msgZeroHeader) ∧
      msgZeroHeader.Answers = [] :=
  ⟨by decide, parseDNSMessage_answers_empty bufZeroHeader 1 msgZeroHeader (by decide)⟩

/-- Disjoint bitwise or is addition: oring a value shifted left by `n` with a
value below `2 ^ n` is the same as adding them. -/
theorem lor_shiftLeft_eq_add (a : Nat) :
    ∀ (n : Nat) (b : Nat), b < 2 ^ n → (a <<< n) ||| b = a <<< n + b := by
  intro n
  induction n generalizing a with
  | zero =>
    intro b hb
    interval_cases b
    simp
  | succ n ih =>
    intro b hb
    have hb2 : b / 2 < 2 ^ n := by omega
    have hbit : b = Nat.bit (b % 2 = 1) (b / 2) := by
      simp [Nat.bit]
      rcases Nat.mod_two_eq_zero_or_one b with h | h <;> simp [h] <;> omega
    have hsh : a <<< (n + 1) = Nat.bit false (a <<< n) := by
      simp [Nat.bit, Nat.shiftLeft_eq, Nat.pow_succ]
      ring
    rw [hsh, hbit, Nat.lor_bit]
    simp only [Bool.false_or]
    rw [ih a (b / 2) hb2]
    simp [Nat.bit]
    rcases Nat.mod_two_eq_zero_or_one b with h | h <;> simp [h] <;> omega

/-- Reading past a prefix reads the suffix. -/
theorem byteAt_append_right (A x : List Nat) (i : Nat) :
    byteAt (A ++ x) (A.length + i) = byteAt x i := by
  simp [byteAt, List.getD_eq_getElem?_getD,
    List.getElem?_append_right (Nat.le_add_right A.length i)]

/-- Reading exactly at the end of a prefix reads the first suffix byte. -/
theorem byteAt_append_self (A x : List Nat) :
    byteAt (A ++ x) A.length = byteAt x 0 := by
  simpa using byteAt_append_right A x 0

/-- A DNS label the encoder can represent: non-empty (Go `encodeName` skips
empty parts), length below 192 (so the length byte is neither 0 nor carries
the `0xc0` pointer marker), bytes below 256. -/
def wfLabel (part : List Nat) : Prop :=
  part ≠ [] ∧ part.length < 192 ∧ ∀ b ∈ part, b < 256

instance : DecidablePred wfLabel := fun part => by
  unfold wfLabel; infer_instance

/-- A name every label of which is representable. -/
def wfName (labels : List (List Nat)) : Prop :=
  ∀ part ∈ labels, wfLabel part

instance : DecidablePred wfName := fun labels => by
  unfold wfName; infer_instance

set_option maxRecDepth 4096 in
/-- A length byte below 192 is never mistaken for a compression pointer. -/
theorem length_byte_not_pointer : ∀ n < 192, ¬(n &&& 0xc0 = 0xc0) := by decide

/-- Parsing an encoded name embedded in a larger buffer: starting at the end
of an arbitrary prefix `A`, the `parseName` loop consumes exactly
`encodeName labels`, appends exactly `labels` to its accumulator, and — when
it has not jumped — reports the offset just past the terminating zero.  The
`jumped`/`original` loop state is carried through untouched, so the lemma
also describes the parse after a compression-pointer jump. -/
theorem parseNameLoop_encode (labels : List (List Nat)) :
    ∀ (A B : List Nat) (jumped : Bool) (original : Nat) (acc : List (List Nat)) (fuel : Nat),
      wfName labels → labels.length + 1 ≤ fuel →
      parseNameLoop (A ++ (encodeName labels ++ B)) fuel A.length jumped original acc
        = some (DNSParse.ok (acc ++ labels,
            if jumped then original else A.length + (encodeName labels).length)) := by
  induction labels with
  | nil =>
    intro A B j o acc fuel _ hfuel
    obtain ⟨k, rfl⟩ : ∃ k, fuel = k + 1 := ⟨fuel - 1, by omega⟩
    simp only [parseNameLoop]
    have hb : byteAt (A ++ (encodeName [] ++ B)) A.length = 0 := by
      rw [byteAt_append_self]
      simp [encodeName, encodeNameBody, byteAt]
    have hlt : A.length < (A ++ (encodeName [] ++ B)).length := by
      simp [encodeName, encodeNameBody]
    rw [if_pos hlt, hb, if_pos rfl]
    simp [encodeName, encodeNameBody]
  | cons part rest ih =>
    intro A B j o acc fuel hwf hfuel
    have hpart : wfLabel part := hwf part (by simp)
    have hrest : wfName rest := fun p hp => hwf p (by simp [hp])
    obtain ⟨hne, hlen, _⟩ := hpart
    obtain ⟨k, rfl⟩ : ∃ k, fuel = k + 1 := ⟨fuel - 1, by omega⟩
    have hM : goByte part.length = part.length := Nat.mod_eq_of_lt (by omega)
    have hshape : encodeName (part :: rest) ++ B
        = part.length :: (part ++ (encodeName rest ++ B)) := by
      simp [encodeName, encodeNameBody, hne, hM]
    rw [hshape]
    have hread : byteAt (A ++ part.length :: (part ++ (encodeName rest ++ B))) A.length
        = part.length := by
      rw [byteAt_append_self]; rfl
    have hlt : A.length < (A ++ part.length :: (part ++ (encodeName rest ++ B))).length := by
      simp
    have hnz : ¬(part.length = 0) := by
      simpa using hne
    have hbound : ¬((A ++ part.length :: (part ++ (encodeName rest ++ B))).length
        ≤ A.length + 1 + part.length) := by
      simp [encodeName, encodeNameBody]
      omega
    simp only [parseNameLoop]
    rw [if_pos hlt, hread, if_neg hnz, if_neg (length_byte_not_pointer _ hlen),
      if_neg hbound]
    have hdrop : ((A ++ part.length :: (part ++ (encodeName rest ++ B))).drop
        (A.length + 1)).take part.length = part := by
      have h1 : A ++ part.length :: (part ++ (encodeName rest ++ B))
          = (A ++ [part.length]) ++ (part ++ (encodeName rest ++ B)) := by simp
      have h2 : A.length + 1 = (A ++ [part.length]).length := by simp
      rw [h1, h2, List.drop_left, List.take_left]
    rw [hdrop]
    have hassoc : A ++ part.length :: (part ++ (encodeName rest ++ B))
        = (A ++ part.length :: part) ++ (encodeName rest ++ B) := by simp
    have hlenA : A.length + 1 + part.length = (A ++ part.length :: part).length := by
      simp; omega
    rw [hassoc, hlenA,
      ih (A ++ part.length :: part) B j o (acc ++ [part]) k hrest (by simp at hfuel ⊢; omega)]
    have hname : (acc ++ [part]) ++ rest = acc ++ part :: rest := by simp
    have hofflen : (A ++ part.length :: part).length + (encodeName rest).length
        = A.length + (encodeName (part :: rest)).length := by
      simp [encodeName, encodeNameBody, hne, hM]
      omega
    rw [hname, hofflen]

set_option maxRecDepth 8192 in
/-- Decoding the flag bits of header byte 2 recovers the flags and the
4-bit opcode that `encodeDNSMessage` wrote into it. -/
theorem flagsByte2_fields :
    ∀ op < 16, ∀ (r a t rd : Bool),
      decide (flagsByte2 r op a t rd &&& 0x80 ≠ 0) = r ∧
        (flagsByte2 r op a t rd >>> 3) &&& 0x0f = op ∧
        decide (flagsByte2 r op a t rd &&& 0x04 ≠ 0) = a ∧
        decide (flagsByte2 r op a t rd &&& 0x02 ≠ 0) = t ∧
        decide (flagsByte2 r op a t rd &&& 0x01 ≠ 0) = rd := by
  decide

set_option maxRecDepth 8192 in
/-- Decoding header byte 3 recovers RecursionAvailable and the 4-bit
response code. -/
theorem flagsByte3_fields :
    ∀ rc < 16, ∀ (ra : Bool),
      decide (flagsByte3 ra rc &&& 0x80 ≠ 0) = ra ∧ flagsByte3 ra rc &&& 0x0f = rc := by
  decide

/-- Recombining the two bytes `encodeDNSMessage` writes for a 16-bit value
gives the value back. -/
theorem concat16_roundtrip (x : Nat) (h : x < 65536) :
    goByte (x >>> 8) <<< 8 ||| goByte x = x := by
  have hlo : goByte x < 2 ^ 8 := Nat.mod_lt _ (by norm_num)
  rw [lor_shiftLeft_eq_add _ 8 _ hlo, Nat.shiftLeft_eq]
  have h8 : x >>> 8 = x / 256 := by
    rw [Nat.shiftRight_eq_div_pow]
  unfold goByte
  omega

/-- Encoding a message with exactly one question and then parsing the
resulting bytes recovers the header fields and the question; the answer
records, which `parseDNSMessage` never decodes, come back empty. -/
theorem parse_encode_core
    (msg : dnsMessage) (q : dnsQuestion) (fuel : Nat)
    (hq : msg.Questions = [q]) (hID : msg.ID < 65536) (hop : msg.Opcode < 16)
    (hrc : msg.Rcode < 16) (hty : q.Qtype < 65536) (hcl : q.Qclass < 65536)
    (hname : wfName q.Name) (hfuel : q.Name.length + 1 ≤ fuel) :
    parseDNSMessage (encodeDNSMessage msg) fuel
      = some (DNSParse.ok { msg with Answers := [] }) := by
  obtain ⟨ID, resp, op, au, tr, rd, ra, rc, Qs, As⟩ := msg
  obtain ⟨nm, ty, cl⟩ := q
  replace hq : Qs = [⟨nm, ty, cl⟩] := hq
  subst hq
  replace hID : ID < 65536 := hID
  replace hop : op < 16 := hop
  replace hrc : rc < 16 := hrc
  replace hty : ty < 65536 := hty
  replace hcl : cl < 65536 := hcl
  replace hname : wfName nm := hname
  replace hfuel : nm.length + 1 ≤ fuel := hfuel
  have hbuf : encodeDNSMessage ⟨ID, resp, op, au, tr, rd, ra, rc, [⟨nm, ty, cl⟩], As⟩
      = [goByte (ID >>> 8), goByte ID, flagsByte2 resp op au tr rd, flagsByte3 ra rc,
          goByte ((1 : Nat) >>> 8), goByte 1, goByte (As.length >>> 8), goByte As.length,
          0, 0, 0, 0] ++
          (encodeName nm ++
            ([goByte (ty >>> 8), goByte ty, goByte (cl >>> 8), goByte cl] ++
              List.foldl (fun b r => b ++ encodeRecord r) [] As)) := by
    simp [encodeDNSMessage, encodeQuestion]
  rw [hbuf]
  have hpn : parseName
      ([goByte (ID >>> 8), goByte ID, flagsByte2 resp op au tr rd, flagsByte3 ra rc,
          goByte ((1 : Nat) >>> 8), goByte 1, goByte (As.length >>> 8), goByte As.length,
          0, 0, 0, 0] ++
          (encodeName nm ++
            ([goByte (ty >>> 8), goByte ty, goByte (cl >>> 8), goByte cl] ++
              List.foldl (fun b r => b ++ encodeRecord r) [] As))) 12 fuel
      = some (DNSParse.ok (nm, 12 + (encodeName nm).length)) :=
    parseNameLoop_encode nm
      [goByte (ID >>> 8), goByte ID, flagsByte2 resp op au tr rd, flagsByte3 ra rc,
        goByte ((1 : Nat) >>> 8), goByte 1, goByte (As.length >>> 8), goByte As.length,
        0, 0, 0, 0]
      ([goByte (ty >>> 8), goByte ty, goByte (cl >>> 8), goByte cl] ++
        List.foldl (fun b r => b ++ encodeRecord r) [] As)
      false 12 [] fuel hname hfuel
  have hsp : ([goByte (ID >>> 8), goByte ID, flagsByte2 resp op au tr rd, flagsByte3 ra rc,
      goByte ((1 : Nat) >>> 8), goByte 1, goByte (As.length >>> 8), goByte As.length,
      0, 0, 0, 0] : List Nat) ++
      (encodeName nm ++
        ([goByte (ty >>> 8), goByte ty, goByte (cl >>> 8), goByte cl] ++
          List.foldl (fun b r => b ++ encodeRecord r) [] As))
      = ([goByte (ID >>> 8), goByte ID, flagsByte2 resp op au tr rd, flagsByte3 ra rc,
          goByte ((1 : Nat) >>> 8), goByte 1, goByte (As.length >>> 8), goByte As.length,
          0, 0, 0, 0] ++ encodeName nm) ++
          ([goByte (ty >>> 8), goByte ty, goByte (cl >>> 8), goByte cl] ++
            List.foldl (fun b r => b ++ encodeRecord r) [] As) := by
    simp
  have hlen2 : 12 + (encodeName nm).length
      = (([goByte (ID >>> 8), goByte ID, flagsByte2 resp op au tr rd, flagsByte3 ra rc,
          goByte ((1 : Nat) >>> 8), goByte 1, goByte (As.length >>> 8), goByte As.length,
          0, 0, 0, 0] : List Nat) ++ encodeName nm).length := by
    simp
    omega
  have e0 : byteAt
      ([goByte (ID >>> 8), goByte ID, flagsByte2 resp op au tr rd, flagsByte3 ra rc,
          goByte ((1 : Nat) >>> 8), goByte 1, goByte (As.length >>> 8), goByte As.length,
          0, 0, 0, 0] ++
          (encodeName nm ++
            ([goByte (ty >>> 8), goByte ty, goByte (cl >>> 8), goByte cl] ++
              List.foldl (fun b r => b ++ encodeRecord r) [] As)))
      (12 + (encodeName nm).length) = goByte (ty >>> 8) := by
    rw [hsp, hlen2, byteAt_append_self]
    rfl
  have e1 : byteAt
      ([goByte (ID >>> 8), goByte ID, flagsByte2 resp op au tr rd, flagsByte3 ra rc,
          goByte ((1 : Nat) >>> 8), goByte 1, goByte (As.length >>> 8), goByte As.length,
          0, 0, 0, 0] ++
          (encodeName nm ++
            ([goByte (ty >>> 8), goByte ty, goByte (cl >>> 8), goByte cl] ++
              List.foldl (fun b r => b ++ encodeRecord r) [] As)))
      (12 + (encodeName nm).length + 1) = goByte ty := by
    rw [hsp, hlen2, byteAt_append_right]
    rfl
  have e2 : byteAt
      ([goByte (ID >>> 8), goByte ID, flagsByte2 resp op au tr rd, flagsByte3 ra rc,
          goByte ((1 : Nat) >>> 8), goByte 1, goByte (As.length >>> 8), goByte As.length,
          0, 0, 0, 0] ++
          (encodeName nm ++
            ([goByte (ty >>> 8), goByte ty, goByte (cl >>> 8), goByte cl] ++
              List.foldl (fun b r => b ++ encodeRecord r) [] As)))
      (12 + (encodeName nm).length + 2) = goByte (cl >>> 8) := by
    rw [hsp, hlen2, byteAt_append_right]
    rfl
  have e3 : byteAt
      ([goByte (ID >>> 8), goByte ID, flagsByte2 resp op au tr rd, flagsByte3 ra rc,
          goByte ((1 : Nat) >>> 8), goByte 1, goByte (As.length >>> 8), goByte As.length,
          0, 0, 0, 0] ++
          (encodeName nm ++
            ([goByte (ty >>> 8), goByte ty, goByte (cl >>> 8), goByte cl] ++
              List.foldl (fun b r => b ++ encodeRecord r) [] As)))
      (12 + (encodeName nm).length + 3) = goByte cl := by
    rw [hsp, hlen2, byteAt_append_right]
    rfl
  have hpq : parseQuestions
      ([goByte (ID >>> 8), goByte ID, flagsByte2 resp op au tr rd, flagsByte3 ra rc,
          goByte ((1 : Nat) >>> 8), goByte 1, goByte (As.length >>> 8), goByte As.length,
          0, 0, 0, 0] ++
          (encodeName nm ++
            ([goByte (ty >>> 8), goByte ty, goByte (cl >>> 8), goByte cl] ++
              List.foldl (fun b r => b ++ encodeRecord r) [] As))) fuel 1 12 []
      = some (DNSParse.ok [⟨nm, ty, cl⟩]) := by
    show parseQuestions _ fuel (Nat.succ 0) 12 [] = _
    rw [parseQuestions]
    simp only [hpn]
    have h4 : ¬(([goByte (ID >>> 8), goByte ID, flagsByte2 resp op au tr rd,
        flagsByte3 ra rc, goByte ((1 : Nat) >>> 8), goByte 1, goByte (As.length >>> 8),
        goByte As.length, 0, 0, 0, 0] ++
        (encodeName nm ++
          ([goByte (ty >>> 8), goByte ty, goByte (cl >>> 8), goByte cl] ++
            List.foldl (fun b r => b ++ encodeRecord r) [] As))).length
        < 12 + (encodeName nm).length + 4) := by
      simp
      omega
    rw [if_neg h4]
    simp only [e0, e1, e2, e3]
    rw [concat16_roundtrip ty hty, concat16_roundtrip cl hcl, parseQuestions]
    simp
  unfold parseDNSMessage
  rw [if_neg (by simp : ¬(([goByte (ID >>> 8), goByte ID,
      flagsByte2 resp op au tr rd, flagsByte3 ra rc, goByte ((1 : Nat) >>> 8), goByte 1,
      goByte (As.length >>> 8), goByte As.length, 0, 0, 0, 0] ++
      (encodeName nm ++
        ([goByte (ty >>> 8), goByte ty, goByte (cl >>> 8), goByte cl] ++
          List.foldl (fun b r => b ++ encodeRecord r) [] As))).length < 12))]
  rw [show byteAt
      ([goByte (ID >>> 8), goByte ID, flagsByte2 resp op au tr rd, flagsByte3 ra rc,
          goByte ((1 : Nat) >>> 8), goByte 1, goByte (As.length >>> 8), goByte As.length,
          0, 0, 0, 0] ++
          (encodeName nm ++
            ([goByte (ty >>> 8), goByte ty, goByte (cl >>> 8), goByte cl] ++
              List.foldl (fun b r => b ++ encodeRecord r) [] As))) 4
        = goByte ((1 : Nat) >>> 8) from rfl,
    show byteAt
      ([goByte (ID >>> 8), goByte ID, flagsByte2 resp op au tr rd, flagsByte3 ra rc,
          goByte ((1 : Nat) >>> 8), goByte 1, goByte (As.length >>> 8), goByte As.length,
          0, 0, 0, 0] ++
          (encodeName nm ++
            ([goByte (ty >>> 8), goByte ty, goByte (cl >>> 8), goByte cl] ++
              List.foldl (fun b r => b ++ encodeRecord r) [] As))) 5
        = goByte 1 from rfl,
    show goByte ((1 : Nat) >>> 8) <<< 8 ||| goByte 1 = 1 by decide]
  rw [hpq]
  rw [show byteAt
      ([goByte (ID >>> 8), goByte ID, flagsByte2 resp op au tr rd, flagsByte3 ra rc,
          goByte ((1 : Nat) >>> 8), goByte 1, goByte (As.length >>> 8), goByte As.length,
          0, 0, 0, 0] ++
          (encodeName nm ++
            ([goByte (ty >>> 8), goByte ty, goByte (cl >>> 8), goByte cl] ++
              List.foldl (fun b r => b ++ encodeRecord r) [] As))) 0
        = goByte (ID >>> 8) from rfl,
    show byteAt
      ([goByte (ID >>> 8), goByte ID, flagsByte2 resp op au tr rd, flagsByte3 ra rc,
          goByte ((1 : Nat) >>> 8), goByte 1, goByte (As.length >>> 8), goByte As.length,
          0, 0, 0, 0] ++
          (encodeName nm ++
            ([goByte (ty >>> 8), goByte ty, goByte (cl >>> 8), goByte cl] ++
              List.foldl (fun b r => b ++ encodeRecord r) [] As))) 1
        = goByte ID from rfl,
    show byteAt
      ([goByte (ID >>> 8), goByte ID, flagsByte2 resp op au tr rd, flagsByte3 ra rc,
          goByte ((1 : Nat) >>> 8), goByte 1, goByte (As.length >>> 8), goByte As.length,
          0, 0, 0, 0] ++
          (encodeName nm ++
            ([goByte (ty >>> 8), goByte ty, goByte (cl >>> 8), goByte cl] ++
              List.foldl (fun b r => b ++ encodeRecord r) [] As))) 2
        = flagsByte2 resp op au tr rd from rfl,
    show byteAt
      ([goByte (ID >>> 8), goByte ID, flagsByte2 resp op au tr rd, flagsByte3 ra rc,
          goByte ((1 : Nat) >>> 8), goByte 1, goByte (As.length >>> 8), goByte As.length,
          0, 0, 0, 0] ++
          (encodeName nm ++
            ([goByte (ty >>> 8), goByte ty, goByte (cl >>> 8), goByte cl] ++
              List.foldl (fun b r => b ++ encodeRecord r) [] As))) 3
        = flagsByte3 ra rc from rfl]
  obtain ⟨f1, f2, f3, f4, f5⟩ := flagsByte2_fields op hop resp au tr rd
  obtain ⟨g1, g2⟩ := flagsByte3_fields rc hrc ra
  rw [concat16_roundtrip ID hID, f1, f2, f3, f4, f5, g1, g2]

set_option maxRecDepth 2048 in
/-- Facts about a pointer byte `0xc0 ||| hi` for a 14-bit offset with high
part `hi`: it matches the pointer test, masking recovers `hi`, and it is
never the zero terminator. -/
theorem pointer_byte_facts :
    ∀ hi < 64, (0xc0 ||| hi) &&& 0xc0 = 0xc0 ∧ (0xc0 ||| hi) &&& 0x3f = hi ∧
      ¬(0xc0 ||| hi = 0) := by
  decide

/-- Recombining the two bytes of a 14-bit compression-pointer offset gives
the offset back. -/
theorem concat14_roundtrip (t : Nat) (h : t < 16384) :
    (t >>> 8) <<< 8 ||| goByte t = t := by
  have hlo : goByte t < 2 ^ 8 := Nat.mod_lt _ (by norm_num)
  rw [lor_shiftLeft_eq_add _ 8 _ hlo, Nat.shiftLeft_eq]
  have h8 : t >>> 8 = t / 256 := by
    rw [Nat.shiftRight_eq_div_pow]
  unfold goByte
  omega

/-- Reading the byte after a complete prefix. -/
theorem get_after_prefix (C : List Nat) (a b : Nat) :
    (C ++ [a, b]).get? (C.length + 1) = some b := by
  rw [List.get?_append_right (by omega)]
  simp

set_option maxRecDepth 2048 in
/-- The high byte of a 14-bit offset is below 64. -/
theorem high_byte_lt (t : Nat) (h : t < 16384) : t >>> 8 < 64 := by
  have h8 : t >>> 8 = t / 256 := by
    rw [Nat.shiftRight_eq_div_pow]
  omega

/-- Following a compression pointer: a buffer that ends with a two-byte
pointer to the start of an encoded name parses, from the pointer position,
to exactly that name, returning the offset just past the pointer. -/
theorem parseName_pointer (nm : List (List Nat)) (pre post : List Nat) (fuel : Nat)
    (hname : wfName nm) (hpre : pre.length < 16384) (hfuel : nm.length + 2 ≤ fuel) :
    parseName
        (pre ++ (encodeName nm ++ (post ++ [0xc0 ||| pre.length >>> 8, goByte pre.length])))
        (pre.length + (encodeName nm).length + post.length) fuel
      = some (DNSParse.ok (nm, pre.length + (encodeName nm).length + post.length + 2)) := by
  obtain ⟨k, rfl⟩ : ∃ k, fuel = k + 1 := ⟨fuel - 1, by omega⟩
  obtain ⟨p1, p2, p3⟩ := pointer_byte_facts (pre.length >>> 8) (high_byte_lt pre.length hpre)
  have hsplit : pre ++ (encodeName nm ++ (post ++ [0xc0 ||| pre.length >>> 8, goByte pre.length]))
      = (pre ++ (encodeName nm ++ post)) ++ [0xc0 ||| pre.length >>> 8, goByte pre.length] := by
    simp
  have hPlen : pre.length + (encodeName nm).length + post.length
      = (pre ++ (encodeName nm ++ post)).length := by
    simp
    omega
  have hb : byteAt
      (pre ++ (encodeName nm ++ (post ++ [0xc0 ||| pre.length >>> 8, goByte pre.length])))
      (pre.length + (encodeName nm).length + post.length) = 0xc0 ||| pre.length >>> 8 := by
    rw [hsplit, hPlen, byteAt_append_self]
    rfl
  have hget : (pre ++ (encodeName nm ++ (post ++ [0xc0 ||| pre.length >>> 8, goByte pre.length]))).get?
      (pre.length + (encodeName nm).length + post.length + 1)
      = some (goByte pre.length) := by
    rw [hsplit, hPlen, get_after_prefix]
  have hlt : pre.length + (encodeName nm).length + post.length
      < (pre ++ (encodeName nm ++ (post ++ [0xc0 ||| pre.length >>> 8, goByte pre.length]))).length := by
    simp
    omega
  unfold parseName
  simp only [parseNameLoop]
  rw [hb, if_pos hlt, if_neg p3, if_pos p1]
  simp only [hget]
  rw [p2, concat14_roundtrip pre.length (by omega)]
  have hrec := parseNameLoop_encode nm pre
    (post ++ [0xc0 ||| pre.length >>> 8, goByte pre.length]) true
    (pre.length + (encodeName nm).length + post.length + 2) [] k hname (by omega)
  simpa using hrec

/-- C2 (amended): encoding a message built from header flags, an ID, one
question and zero or more answers, then parsing the bytes, recovers the
header fields and the question exactly — but the answer section is not
decoded by `parseDNSMessage`, so the parsed message's answer list is empty
rather than equal to the original; and a name reached through a
name-compression pointer parses to the same label list (hence the same
dotted string) as its uncompressed length-prefixed encoding. -/
theorem encode_then_parse_roundtrip
    (msg : dnsMessage) (q : dnsQuestion) (fuel : Nat)
    (hq : msg.Questions = [q]) (hID : msg.ID < 65536) (hop : msg.Opcode < 16)
    (hrc : msg.Rcode < 16) (hty : q.Qtype < 65536) (hcl : q.Qclass < 65536)
    (hname : wfName q.Name) (hfuel : q.Name.length + 1 ≤ fuel) :
    parseDNSMessage (encodeDNSMessage msg) fuel
        = some (DNSParse.ok { msg with Answers := [] }) ∧
      ∀ (pre post : List Nat) (fuel2 : Nat), pre.length < 16384 →
        q.Name.length + 2 ≤ fuel2 →
        parseName
            (pre ++ (encodeName q.Name ++
              (post ++ [0xc0 ||| pre.length >>> 8, goByte pre.length])))
            (pre.length + (encodeName q.Name).length + post.length) fuel2
          = some (DNSParse.ok
              (q.Name, pre.length + (encodeName q.Name).length + post.length + 2)) ∧
        parseName (pre ++ (encodeName q.Name ++ post)) pre.length fuel2
          = some (DNSParse.ok (q.Name, pre.length + (encodeName q.Name).length)) := by
  refine ⟨parse_encode_core msg q fuel hq hID hop hrc hty hcl hname hfuel, ?_⟩
  intro pre post fuel2 hpre hf2
  refine ⟨parseName_pointer q.Name pre post fuel2 hname hpre hf2, ?_⟩
  have h := parseNameLoop_encode q.Name pre post false pre.length [] fuel2 hname (by omega)
  simpa [parseName] using h

/-- The question `matter.local`, type A, class IN, as a label list. -/
def demoQuestion : dnsQuestion :=
  { Name := [[109, 97, 116, 116, 101, 114], [108, 111, 99, 97, 108]]
    Qtype := 1
    Qclass := 1 }

/-- A response message carrying one answer record. -/
def demoMsgWithAnswer : dnsMessage :=
  { ID := 4660, Response := true, Opcode := 0, Authoritative := true, Truncated := false,
    RecursionDesired := false, RecursionAvailable := false, Rcode := 0,
    Questions := [demoQuestion],
    Answers := [{ Name := demoQuestion.Name, Rtype := 1, Rclass := 1, TTL := 120,
                  Rdata := [192, 168, 1, 2] }] }

/-- C2 counterexample: for a message with one answer record, parsing the
bytes produced by `encodeDNSMessage` does NOT yield a structurally
equivalent message — the answers come back empty, so the claim as stated
fails on any message with a non-empty answer section. -/
theorem encode_then_parse_not_equivalent :
    parseDNSMessage (encodeDNSMessage demoMsgWithAnswer) 3
        = some (DNSParse.ok { demoMsgWithAnswer with Answers := [] }) ∧
      ({ demoMsgWithAnswer with Answers := [] } : dnsMessage) ≠ demoMsgWithAnswer :=
  ⟨by decide, by decide⟩

/-- The same message without its answer record. -/
def demoMsgNoAnswer : dnsMessage :=
  { demoMsgWithAnswer with Answers := [] }

/-- Witness for C2 (amended): the round trip and the pointer equivalence
evaluated on a concrete message and a concrete pointer-compressed buffer. -/
theorem encode_then_parse_roundtrip_witness :
    parseDNSMessage (encodeDNSMessage demoMsgNoAnswer) 3
        = some (DNSParse.ok demoMsgNoAnswer) ∧
      parseName
          ([0] ++ (encodeName demoQuestion.Name ++
            ([] ++ [0xc0 ||| (1 : Nat) >>> 8, goByte 1])))
          (1 + (encodeName demoQuestion.Name).length + 0) 4
        = some (DNSParse.ok
            (demoQuestion.Name, 1 + (encodeName demoQuestion.Name).length + 0 + 2)) := by
  have h := encode_then_parse_roundtrip demoMsgNoAnswer demoQuestion 3 rfl (by decide)
    (by decide) (by decide) (by decide) (by decide) (by decide) (by decide)
  exact ⟨h.1, (h.2 [0] [] 4 (by decide) (by decide)).1⟩

/-- Go `net.IP` as the zone code observes it: whether `ip.To4() != nil`
(an IPv4 address), `ip.IsLoopback()`, `ip.IsLinkLocalUnicast()`, and the raw
address bytes (which distinguish addresses). -/
structure GoIP where
  isV4 : Bool
  isLoopback : Bool
  isLinkLocalUnicast : Bool
  addr : List Nat
deriving DecidableEq, Repr

/-- Go struct `Question` (`internal/mdns/server.go`), the zone-facing query
with its dotted name as a byte string (Go strings are byte strings). -/
structure Question where
  Name : List Nat
  Qtype : Nat
  Qclass : Nat
deriving DecidableEq, Repr

/-- The bytes of the Go string literal `.local`. -/
def strLocalSuffix : List Nat := [46, 108, 111, 99, 97, 108]

/-- The bytes of the Go string literal `matter-server`. -/
def strMatterServer : List Nat :=
  [109, 97, 116, 116, 101, 114, 45, 115, 101, 114, 118, 101, 114]

/-- Go `strings.ToLower` on the ASCII hostnames at play: lower-case the
bytes `A`–`Z`. -/
def goToLower (s : List Nat) : List Nat :=
  s.map fun b => if 65 ≤ b && b ≤ 90 then b + 32 else b

/-- Go `strings.HasSuffix`. -/
def goHasSuffix (s post : List Nat) : Bool :=
  post.isSuffixOf s

/-- Go struct `RR_Header` (`internal/mdns/server.go`). -/
structure RR_Header where
  Name : List Nat
  Rtype : Nat
  Class : Nat
  TTL : Nat
  Length : Nat
deriving DecidableEq, Repr

/-- The records `MatterZone.Records` constructs: Go structs `A` and `AAAA`
(`internal/mdns/server.go`). -/
inductive ZoneRecord where
  | A (Hdr : RR_Header) (a : GoIP)
  | AAAA (Hdr : RR_Header) (aaaa : GoIP)
deriving DecidableEq, Repr

/-- Go `Record.Header()`. -/
def ZoneRecord.header : ZoneRecord → RR_Header
  | .A h _ => h
  | .AAAA h _ => h

/-- Go struct `MatterZone` (`internal/mdns/zone.go`), minus the logger. -/
structure MatterZone where
  hostname : List Nat
  ips : List GoIP
deriving DecidableEq, Repr

/-- Go `MatterZone.updateIPs` (`internal/mdns/zone.go`): walk the up,
non-loopback interfaces and keep their addresses, skipping loopback and
link-local-unicast addresses.  The interface walk is operating-system input;
`candidates` stands for the address list it yields, and the function keeps
exactly the code's per-address filter. -/
def updateIPs (candidates : List GoIP) : List GoIP :=
  candidates.filter fun ip => !ip.isLoopback && !ip.isLinkLocalUnicast

/-- Go `NewMatterZone` (`internal/mdns/zone.go`): default an empty hostname
to `matter-server`, append `.local` when absent, and snapshot the local
addresses via `updateIPs`. -/
def NewMatterZone (hostname : List Nat) (candidates : List GoIP) : MatterZone :=
  { hostname :=
      if goHasSuffix (if hostname = [] then strMatterServer else hostname) strLocalSuffix then
        if hostname = [] then strMatterServer else hostname
      else
        (if hostname = [] then strMatterServer else hostname) ++ strLocalSuffix
    ips := updateIPs candidates }

/-- Go `MatterZone.Records` (`internal/mdns/zone.go`): answer only when the
lower-cased query name equals the lower-cased advertised hostname; on a
match, type-A queries collect the IPv4 addresses (`ip.To4() != nil`) and
type-AAAA queries the non-IPv4, non-loopback addresses, each as a record
with TTL 120 and class IN; every other type falls through the switch with no
records. -/
def MatterZone.Records (z : MatterZone) (q : Question) : List ZoneRecord :=
  if goToLower q.Name ≠ goToLower z.hostname then
    []
  else if q.Qtype = dnsTypeA then
    z.ips.foldl (fun records ip =>
      if ip.isV4 then
        records ++ [ZoneRecord.A
          { Name := z.hostname, Rtype := dnsTypeA, Class := 1, TTL := 120, Length := 0 } ip]
      else records) []
  else if q.Qtype = dnsTypeAAAA then
    z.ips.foldl (fun records ip =>
      if !ip.isV4 && !ip.isLoopback then
        records ++ [ZoneRecord.AAAA
          { Name := z.hostname, Rtype := dnsTypeAAAA, Class := 1, TTL := 120, Length := 0 } ip]
      else records) []
  else []

/-- The append-if fold the zone code uses to build its record list is the
map of the filtered list. -/
theorem foldl_append_if_eq_filter_map {α β : Type} (f : α → Bool) (g : α → β) :
    ∀ (l : List α) (acc : List β),
      l.foldl (fun r x => if f x then r ++ [g x] else r) acc
        = acc ++ (l.filter f).map g := by
  intro l
  induction l with
  | nil => intro acc; simp
  | cons x xs ih =>
    intro acc
    by_cases h : f x <;> simp [h, ih]

/-- Over the zone's snapshot (which contains no loopback addresses), the
AAAA branch's non-loopback test is redundant. -/
theorem aaaa_filter_eq (cands : List GoIP) :
    (updateIPs cands).filter (fun ip => !ip.isV4 && !ip.isLoopback)
      = (updateIPs cands).filter (fun ip => !ip.isV4) := by
  apply List.filter_congr
  intro ip hip
  have h := (List.mem_filter.mp hip).2
  simp at h
  simp [h.1]

/-- C5: `Records` answers only queries whose name matches the advertised
hostname case-insensitively; the advertised hostname is the configured value
with `.local` appended once when absent; a matching type-A query yields one
A record per known (snapshot) IPv4 address, a matching type-AAAA query one
AAAA record per known non-IPv4 address — the snapshot itself already
excludes loopback and link-local addresses — any other type yields no
records; and every returned record carries TTL 120. -/
theorem MatterZone_Records_spec (hostname : List Nat) (cands : List GoIP) (q : Question) :
    (MatterZone.Records (NewMatterZone hostname cands) q ≠ [] →
        goToLower q.Name = goToLower (NewMatterZone hostname cands).hostname) ∧
      (hostname ≠ [] →
        (NewMatterZone hostname cands).hostname
          = if goHasSuffix hostname strLocalSuffix then hostname
            else hostname ++ strLocalSuffix) ∧
      ((NewMatterZone hostname cands).ips
          = cands.filter fun ip => !ip.isLoopback && !ip.isLinkLocalUnicast) ∧
      (goToLower q.Name = goToLower (NewMatterZone hostname cands).hostname →
        (q.Qtype = dnsTypeA →
          MatterZone.Records (NewMatterZone hostname cands) q
            = ((updateIPs cands).filter fun ip => ip.isV4).map fun ip =>
                ZoneRecord.A
                  { Name := (NewMatterZone hostname cands).hostname, Rtype := dnsTypeA,
                    Class := 1, TTL := 120, Length := 0 } ip) ∧
        (q.Qtype = dnsTypeAAAA →
          MatterZone.Records (NewMatterZone hostname cands) q
            = ((updateIPs cands).filter fun ip => !ip.isV4).map fun ip =>
                ZoneRecord.AAAA
                  { Name := (NewMatterZone hostname cands).hostname, Rtype := dnsTypeAAAA,
                    Class := 1, TTL := 120, Length := 0 } ip) ∧
        (q.Qtype ≠ dnsTypeA → q.Qtype ≠ dnsTypeAAAA →
          MatterZone.Records (NewMatterZone hostname cands) q = [])) ∧
      (∀ r ∈ MatterZone.Records (NewMatterZone hostname cands) q,
        (ZoneRecord.header r).TTL = 120) := by
  refine ⟨?_, ?_, rfl, ?_, ?_⟩
  · intro hne
    by_contra hq
    simp only [MatterZone.Records, if_pos hq] at hne
    exact hne rfl
  · intro h0
    simp only [NewMatterZone, if_neg h0]
  · intro hmatch
    have hcond : ¬(goToLower q.Name ≠ goToLower (NewMatterZone hostname cands).hostname) :=
      fun hc => hc hmatch
    refine ⟨?_, ?_, ?_⟩
    · intro hA
      simp only [MatterZone.Records, if_neg hcond, if_pos hA]
      rw [foldl_append_if_eq_filter_map (fun ip : GoIP => ip.isV4)
        (fun ip : GoIP => ZoneRecord.A
          { Name := (NewMatterZone hostname cands).hostname, Rtype := dnsTypeA,
            Class := 1, TTL := 120, Length := 0 } ip)]
      simp [NewMatterZone]
    · intro hAAAA
      have hnA : ¬(q.Qtype = dnsTypeA) := by
        rw [hAAAA]; decide
      simp only [MatterZone.Records, if_neg hcond, if_neg hnA, if_pos hAAAA]
      rw [foldl_append_if_eq_filter_map (fun ip : GoIP => !ip.isV4 && !ip.isLoopback)
        (fun ip : GoIP => ZoneRecord.AAAA
          { Name := (NewMatterZone hostname cands).hostname, Rtype := dnsTypeAAAA,
            Class := 1, TTL := 120, Length := 0 } ip)]
      rw [show (NewMatterZone hostname cands).ips = updateIPs cands from rfl, aaaa_filter_eq]
      simp
    · intro hnA hnAAAA
      simp only [MatterZone.Records, if_neg hcond, if_neg hnA, if_neg hnAAAA]
  · intro r hr
    by_cases hq : goToLower q.Name ≠ goToLower (NewMatterZone hostname cands).hostname
    · simp [MatterZone.Records, if_pos hq] at hr
    · by_cases hA : q.Qtype = dnsTypeA
      · simp only [MatterZone.Records, if_neg hq, if_pos hA] at hr
        rw [foldl_append_if_eq_filter_map (fun ip : GoIP => ip.isV4)
          (fun ip : GoIP => ZoneRecord.A
            { Name := (NewMatterZone hostname cands).hostname, Rtype := dnsTypeA,
              Class := 1, TTL := 120, Length := 0 } ip)] at hr
        simp only [List.nil_append, List.mem_map] at hr
        obtain ⟨ip, _, rfl⟩ := hr
        rfl
      · by_cases hAAAA : q.Qtype = dnsTypeAAAA
        · simp only [MatterZone.Records, if_neg hq, if_neg hA, if_pos hAAAA] at hr
          rw [foldl_append_if_eq_filter_map (fun ip : GoIP => !ip.isV4 && !ip.isLoopback)
            (fun ip : GoIP => ZoneRecord.AAAA
              { Name := (NewMatterZone hostname cands).hostname, Rtype := dnsTypeAAAA,
                Class := 1, TTL := 120, Length := 0 } ip)] at hr
          simp only [List.nil_append, List.mem_map] at hr
          obtain ⟨ip, _, rfl⟩ := hr
          rfl
        · simp [MatterZone.Records, if_neg hq, if_neg hA, if_neg hAAAA] at hr

/-- IPv4 address 192.168.1.7 on an up, non-loopback interface. -/
def demoV4 : GoIP :=
  { isV4 := true, isLoopback := false, isLinkLocalUnicast := false, addr := [192, 168, 1, 7] }

/-- A global IPv6 address. -/
def demoV6 : GoIP :=
  { isV4 := false, isLoopback := false, isLinkLocalUnicast := false,
    addr := [32, 1, 13, 184, 0, 0, 0, 0, 0, 0, 0, 0, 0, 0, 0, 1] }

/-- The IPv4 loopback 127.0.0.1. -/
def demoLoop : GoIP :=
  { isV4 := true, isLoopback := true, isLinkLocalUnicast := false, addr := [127, 0, 0, 1] }

/-- Witness for C5: with hostname `matter` and a candidate list holding an
IPv4, an IPv6 and a loopback address, a mixed-case type-A query for
`Matter.local` returns exactly the one A record with TTL 120, and the
advertised hostname gained the `.local` suffix. -/
theorem MatterZone_Records_spec_witness :
    MatterZone.Records (NewMatterZone [109, 97, 116, 116, 101, 114] [demoV4, demoV6, demoLoop])
        { Name := [77, 97, 116, 116, 101, 114, 46, 108, 111, 99, 97, 108], Qtype := 1, Qclass := 1 }
        = [ZoneRecord.A
            { Name := [109, 97, 116, 116, 101, 114, 46, 108, 111, 99, 97, 108],
              Rtype := 1, Class := 1, TTL := 120, Length := 0 } demoV4] ∧
      (NewMatterZone [109, 97, 116, 116, 101, 114] [demoV4, demoV6, demoLoop]).hostname
        = [109, 97, 116, 116, 101, 114, 46, 108, 111, 99, 97, 108] := by
  have h := MatterZone_Records_spec [109, 97, 116, 116, 101, 114] [demoV4, demoV6, demoLoop]
    { Name := [77, 97, 116, 116, 101, 114, 46, 108, 111, 99, 97, 108], Qtype := 1, Qclass := 1 }
  constructor
  · exact ((h.2.2.2.1 (by decide)).1 rfl).trans (by decide)
  · exact (h.2.1 (by decide)).trans (by decide)

/-- Go struct `Connection` (`internal/websocket/handler.go`), the fields the
close and broadcast paths touch.  `ctxDone` is whether the session context
has been cancelled (`c.cancel()` ran, so `c.ctx.Done()` is closed);
`unsubscribe` holds the subscription id the unsubscribe closure captured, or
`none` once close has invoked and nilled it; `sendQueue`/`sendCap` are the
buffered send channel's contents and capacity (256 at construction);
`sendClosed`/`sockClosed` record `close(c.send)` and `c.conn.Close()`. -/
structure Connection where
  id : Nat
  ctxDone : Bool
  unsubscribe : Option Nat
  sendQueue : List (List Nat)
  sendCap : Nat
  sendClosed : Bool
  sockClosed : Bool
deriving DecidableEq, Repr

/-- The shared state the handler and server hold: the heap of live
`Connection` objects, the ids registered in `Handler.connections`, and the
subscription ids in `Server.eventCallbacks`. -/
structure WSState where
  conns : List Connection
  registry : List Nat
  subs : List Nat
deriving DecidableEq, Repr

/-- Look a connection object up by id. -/
def findConn : List Connection → Nat → Option Connection
  | [], _ => none
  | c :: rest, cid => if c.id = cid then some c else findConn rest cid

/-- Overwrite the first connection object with the given id. -/
def replaceConn : List Connection → Nat → Connection → List Connection
  | [], _, _ => []
  | c :: rest, cid, c2 => if c.id = cid then c2 :: rest else c :: replaceConn rest cid c2

/-- Go `Server.Subscribe`'s unsubscribe closure (`src/unnamed/part_006`) and
Go `delete(h.connections, c.id)`: remove the first entry with the given
id (ids are unique, map semantics). -/
def removeFirst : List Nat → Nat → List Nat
  | [], _ => []
  | x :: rest, y => if x = y then rest else x :: removeFirst rest y

/-- Go `Server.Subscribe` (`src/unnamed/part_006`): append a subscription
under a fresh id and hand that id back through the unsubscribe closure. -/
def subscribeCallback (subs : List Nat) (sid : Nat) : List Nat :=
  subs ++ [sid]

/-- Go `Connection.close` (`internal/websocket/handler.go`) run from a
goroutine that holds no handler lock, step by step:
* the `select` on `c.ctx.Done()` returns immediately when the context is
  already cancelled — the whole call is then a no-op;
* otherwise: invoke the unsubscribe closure and nil it, cancel the context,
  delete the session from `Handler.connections`, close the send channel
  (the inner recover makes a double `close(c.send)` panic-free), and close
  the socket. -/
def closeConn (s : WSState) (cid : Nat) : WSState :=
  match findConn s.conns cid with
  | none => s
  | some c =>
    if c.ctxDone then
      s
    else
      { conns := replaceConn s.conns cid
          { c with
            ctxDone := true
            unsubscribe := none
            sendClosed := true
            sockClosed := true }
        registry := removeFirst s.registry cid
        subs :=
          match c.unsubscribe with
          | some sid => removeFirst s.subs sid
          | none => s.subs }

/-- A found connection carries the id it was looked up by. -/
theorem findConn_eq_id :
    ∀ (l : List Connection) (cid : Nat) (c : Connection),
      findConn l cid = some c → c.id = cid := by
  intro l
  induction l with
  | nil => intro cid c h; simp [findConn] at h
  | cons d rest ih =>
    intro cid c h
    by_cases hd : d.id = cid
    · simp [findConn, hd] at h
      rw [← h]
      exact hd
    · simp [findConn, hd] at h
      exact ih cid c h

/-- Replacing the found connection is what a subsequent lookup sees. -/
theorem findConn_replaceConn :
    ∀ (l : List Connection) (cid : Nat) (c c2 : Connection),
      findConn l cid = some c → c2.id = cid →
      findConn (replaceConn l cid c2) cid = some c2 := by
  intro l
  induction l with
  | nil => intro cid c c2 h _; simp [findConn] at h
  | cons d rest ih =>
    intro cid c c2 h hc2
    by_cases hd : d.id = cid
    · simp [findConn, replaceConn, hd, hc2]
    · simp [findConn, replaceConn, hd] at h ⊢
      exact ih cid c c2 h hc2

/-- C3: closing a session is idempotent and single-fire.  A second (and any
later) close of the same session is a no-op on the whole shared state —
registry, subscriber list, send channel, socket — because the first close
cancelled the context; and the first close of a live session applies the
unsubscribe handle to the subscriber list exactly once and removes the
session from the registry exactly once (so the connection count drops once,
and the recover around the channel close means no panic is modelled). -/
theorem closeConn_idempotent (s : WSState) (cid : Nat) :
    closeConn (closeConn s cid) cid = closeConn s cid ∧
      ∀ c, findConn s.conns cid = some c → c.ctxDone = false →
        (closeConn s cid).subs
            = (match c.unsubscribe with
               | some sid => removeFirst s.subs sid
               | none => s.subs) ∧
          (closeConn s cid).registry = removeFirst s.registry cid := by
  constructor
  · cases hf : findConn s.conns cid with
    | none => simp [closeConn, hf]
    | some c =>
      by_cases hd : c.ctxDone
      · simp [closeConn, hf, hd]
      · have hid : c.id = cid := findConn_eq_id s.conns cid c hf
        have hf2 := findConn_replaceConn s.conns cid c
          { c with
            ctxDone := true
            unsubscribe := none
            sendClosed := true
            sockClosed := true } hf hid
        simp [closeConn, hf, hd, hf2]
  · intro c hf hd
    simp [closeConn, hf, hd]

/-- Outcome of `BroadcastEvent`: completion with the new shared state, or a
permanent block (the broadcasting goroutine deadlocks against itself). -/
inductive BroadcastOutcome where
  | done (s : WSState)
  | deadlock (cid : Nat)
deriving DecidableEq, Repr

/-- The loop of Go `Handler.BroadcastEvent` (`internal/websocket/handler.go`),
run while this goroutine holds `h.connectionsMu.RLock()`:
* a non-blocking send on `conn.send` succeeds exactly when the buffered
  channel has free capacity, enqueueing the serialized event;
* on a full queue the code calls `conn.close()`; a close of an
  already-cancelled session returns before touching any lock, but a close of
  a live session reaches `c.handler.connectionsMu.Lock()` — and
  `sync.RWMutex` is not reentrant, so acquiring the write lock while this
  same goroutine holds the read lock blocks forever.  The broadcast then
  never completes and the surviving state is never published: `deadlock`. -/
def broadcastLoop (data : List Nat) : List Nat → WSState → BroadcastOutcome
  | [], s => .done s
  | cid :: rest, s =>
    match findConn s.conns cid with
    | none => broadcastLoop data rest s
    | some c =>
      if c.sendQueue.length < c.sendCap then
        broadcastLoop data rest
          { s with conns :=
              replaceConn s.conns cid { c with sendQueue := c.sendQueue ++ [data] } }
      else if c.ctxDone then
        broadcastLoop data rest s
      else
        .deadlock cid

/-- Go `Handler.BroadcastEvent`: serialize the event once (the `data` bytes)
and run the registry loop under the read lock. -/
def BroadcastEvent (s : WSState) (data : List Nat) : BroadcastOutcome :=
  broadcastLoop data s.registry s

/-- A registered session whose send channel is at capacity (256 pending
messages) and whose context is still live. -/
def fullConn : Connection :=
  { id := 1, ctxDone := false, unsubscribe := some 10,
    sendQueue := List.replicate 256 [123], sendCap := 256,
    sendClosed := false, sockClosed := false }

/-- Handler state with that one session registered. -/
def fullState : WSState :=
  { conns := [fullConn], registry := [1], subs := [10] }

set_option maxRecDepth 4096 in
/-- C4: the claim that a session with a full queue is closed and removed
from the registry is FALSE on the code: `BroadcastEvent` reaches
`conn.close()` while holding `connectionsMu.RLock`, and `close` acquires
`connectionsMu.Lock`, which blocks forever; the broadcast deadlocks instead
of closing and removing the session. -/
theorem broadcast_full_queue_deadlocks :
    BroadcastEvent fullState [7] = BroadcastOutcome.deadlock 1 ∧
      fullConn.sendQueue.length = fullConn.sendCap ∧ fullConn.ctxDone = false := by
  refine ⟨?_, by simp [fullConn], rfl⟩
  show broadcastLoop [7] [1] fullState = BroadcastOutcome.deadlock 1
  rw [broadcastLoop]
  simp only [show findConn fullState.conns 1 = some fullConn from rfl]
  rw [if_neg (by simp [fullConn] : ¬(fullConn.sendQueue.length < fullConn.sendCap)),
    if_neg (by simp [fullConn] : ¬(fullConn.ctxDone = true))]

/-- A live registered session with room in its queue. -/
def liveConn : Connection :=
  { id := 2, ctxDone := false, unsubscribe := some 11,
    sendQueue := [], sendCap := 256, sendClosed := false, sockClosed := false }

/-- Handler state with that session registered and subscribed. -/
def liveState : WSState :=
  { conns := [liveConn], registry := [2], subs := [11] }

/-- Witness for C3: on a concrete live session, the second close is a no-op
and the first close empties the subscriber list and the registry exactly
once. -/
theorem closeConn_idempotent_witness :
    closeConn (closeConn liveState 2) 2 = closeConn liveState 2 ∧
      (closeConn liveState 2).subs = [] ∧ (closeConn liveState 2).registry = [] := by
  have h := closeConn_idempotent liveState 2
  refine ⟨h.1, ?_, ?_⟩
  · exact ((h.2 liveConn rfl rfl).1).trans (by decide)
  · exact ((h.2 liveConn rfl rfl).2).trans (by decide)

/-- Values Go's `encoding/json` (and other callers) put into the
`args map[string]interface{}` that `parseNodeID` inspects: float64 numbers
(modelled exactly as rationals), `int`/`int64` values, `json.Number` and
`string` values (byte strings), and anything else.  Go strings are byte
strings, embedded as `List Nat`. -/
inductive GoValue where
  | float64 (q : ℚ)
  | goInt (n : Int)
  | goInt64 (n : Int)
  | jsonNumber (s : List Nat)
  | str (s : List Nat)
  | other
deriving DecidableEq, Repr

/-- The digit loop of Go `strconv.ParseInt` base 10: all bytes must be
ASCII digits. -/
def parseDigitsAux : List Nat → Nat → Option Nat
  | [], acc => some acc
  | c :: cs, acc =>
    if 48 ≤ c ∧ c ≤ 57 then parseDigitsAux cs (acc * 10 + (c - 48)) else none

/-- Sign-applied digit parse with the int64 range check of
`strconv.ParseInt(s, 10, 64)` (out-of-range input is an error). -/
def goParseInt64Core (neg : Bool) (digits : List Nat) : Option Int :=
  match digits with
  | [] => none
  | _ :: _ =>
    match parseDigitsAux digits 0 with
    | none => none
    | some n =>
      if neg then
        if (n : Int) ≤ 2 ^ 63 then some (-(n : Int)) else none
      else
        if (n : Int) ≤ 2 ^ 63 - 1 then some (n : Int) else none

/-- Go `strconv.ParseInt(s, 10, 64)` as `json.Number.Int64` calls it:
optional sign, then decimal digits; `none` is a parse or range error. -/
def goParseInt64 (s : List Nat) : Option Int :=
  match s with
  | [] => none
  | 45 :: cs => goParseInt64Core true cs
  | 43 :: cs => goParseInt64Core false cs
  | cs => goParseInt64Core false cs

/-- Go `int(f)` on a float64: truncation toward zero.  The float is modelled
exactly as a rational, whose truncation toward zero is the T-division of
numerator by denominator. -/
def goTruncToInt (q : ℚ) : Int :=
  Int.div q.num (q.den : Int)

/-- Go struct `MatterNodeData` (`internal/models/types.go`).  The two
`time.Time` fields are timestamps.  `Attributes` is a Go map VALUE — a
reference into the heap of map objects — and `AttributeSubscriptions` a
slice header, likewise a reference; copying the struct copies these
references, not the referenced contents. -/
structure MatterNodeData where
  NodeID : Int
  DateCommissioned : Nat
  LastInterview : Nat
  InterviewVersion : Int
  Available : Bool
  IsBridge : Bool
  Attributes : Nat
  AttributeSubscriptions : Nat
deriving DecidableEq, Repr

/-- Values stored in a node's open-ended attributes map. -/
inductive AttrValue where
  | str (s : List Nat)
  | num (n : Int)
  | boolean (b : Bool)
  | null
deriving DecidableEq, Repr

/-- One Go map object: association list from byte-string keys. -/
abbrev AttrMap := List (List Nat × AttrValue)

/-- The heap of map objects the node records point into. -/
structure AttrHeap where
  maps : List (Nat × AttrMap)
deriving DecidableEq, Repr

/-- Go map assignment `m[k] = v`: replace the key's entry or add it. -/
def setKey : AttrMap → List Nat → AttrValue → AttrMap
  | [], k, v => [(k, v)]
  | (k2, v2) :: rest, k, v =>
    if k2 = k then (k, v) :: rest else (k2, v2) :: setKey rest k v

/-- Dereference a map reference. -/
def heapRead (h : AttrHeap) (ref : Nat) : Option AttrMap :=
  h.maps.lookup ref

/-- Write key `k` through a map reference. -/
def heapWrite (h : AttrHeap) (ref : Nat) (k : List Nat) (v : AttrValue) : AttrHeap :=
  { maps := h.maps.map fun p => if p.1 = ref then (p.1, setKey p.2 k v) else p }

/-- Go `nodeCopy := *node` (`handleGetNode` / `handleGetNodes` in
`src/unnamed/part_006`): a field-by-field shallow struct copy — the map and
slice fields copy the reference. -/
def goCopyNode (n : MatterNodeData) : MatterNodeData :=
  { NodeID := n.NodeID
    DateCommissioned := n.DateCommissioned
    LastInterview := n.LastInterview
    InterviewVersion := n.InterviewVersion
    Available := n.Available
    IsBridge := n.IsBridge
    Attributes := n.Attributes
    AttributeSubscriptions := n.AttributeSubscriptions }

/-- Go map lookup `s.nodes[nodeID]`. -/
def lookupNode : List (Int × MatterNodeData) → Int → Option MatterNodeData
  | [], _ => none
  | (k, n) :: rest, key => if k = key then some n else lookupNode rest key

/-- The errors the node commands return (`fmt.Errorf` messages in
`src/unnamed/part_006`): `missing required parameter: node_id`,
`invalid node_id: …`, and `node %d not found`. -/
inductive CmdError where
  | missingNodeID
  | invalidNodeID
  | nodeNotFound (id : Int)
deriving DecidableEq, Repr

/-- The bytes of the Go string literal `node_id`. -/
def keyNodeID : List Nat := [110, 111, 100, 101, 95, 105, 100]

/-- Go map access `args["node_id"]`. -/
def lookupArg : List (List Nat × GoValue) → List Nat → Option GoValue
  | [], _ => none
  | (k, v) :: rest, key => if k = key then some v else lookupArg rest key

/-- Go `parseNodeID(args)` (`src/unnamed/part_006`): require `node_id`;
coerce float64 by `int(t)` truncation, int/int64 directly, `json.Number`
and string through `strconv.ParseInt(s, 10, 64)`; any other type or failed
parse is an error. -/
def parseNodeID (args : List (List Nat × GoValue)) : Except CmdError Int :=
  match lookupArg args keyNodeID with
  | none => .error .missingNodeID
  | some v =>
    match v with
    | .float64 q => .ok (goTruncToInt q)
    | .goInt n => .ok n
    | .goInt64 n => .ok n
    | .jsonNumber s =>
      match goParseInt64 s with
      | none => .error .invalidNodeID
      | some i => .ok i
    | .str s =>
      match goParseInt64 s with
      | none => .error .invalidNodeID
      | some i => .ok i
    | .other => .error .invalidNodeID

/-- Go `Server.handleGetNode` (`src/unnamed/part_006`): parse the id, look
the node up in the in-memory registry, return a (shallow) copy or a
not-found error. -/
def handleGetNode (nodes : List (Int × MatterNodeData))
    (args : List (List Nat × GoValue)) : Except CmdError MatterNodeData :=
  match parseNodeID args with
  | .error e => .error e
  | .ok nodeID =>
    match lookupNode nodes nodeID with
    | none => .error (.nodeNotFound nodeID)
    | some node => .ok (goCopyNode node)

/-- Go `Server.handleGetNodes` (`src/unnamed/part_006`): a (shallow) copy of
every registered node. -/
def handleGetNodes (nodes : List (Int × MatterNodeData)) : List MatterNodeData :=
  nodes.map fun p => goCopyNode p.2

/-- Go `models.NodePingResult{"reachable": true}`. -/
def pingReachable : List (List Nat × Bool) :=
  [([114, 101, 97, 99, 104, 97, 98, 108, 101], true)]

/-- Go `Server.handlePingNode` (`src/unnamed/part_006`): parse the id, check
presence in the registry, answer `reachable: true` or a not-found error. -/
def handlePingNode (nodes : List (Int × MatterNodeData))
    (args : List (List Nat × GoValue)) : Except CmdError (List (List Nat × Bool)) :=
  match parseNodeID args with
  | .error e => .error e
  | .ok nodeID =>
    match lookupNode nodes nodeID with
    | none => .error (.nodeNotFound nodeID)
    | some _ => .ok pingReachable

/-- C6: a missing `node_id` is a client error; whenever `parseNodeID`
rejects the arguments (absent key, unparsable string or number, unsupported
type), both `get_node` and `ping_node` return that client error (in the
total embedding there is no crash path); an id absent from the registry gets
a not-found error from both commands; and `ping_node` answers
`reachable: true` exactly when the parsed id is present in the registry. -/
theorem node_commands_spec (args : List (List Nat × GoValue))
    (nodes : List (Int × MatterNodeData)) :
    (lookupArg args keyNodeID = none →
        parseNodeID args = Except.error CmdError.missingNodeID) ∧
      (∀ e, parseNodeID args = Except.error e →
        handleGetNode nodes args = Except.error e ∧
          handlePingNode nodes args = Except.error e) ∧
      (∀ nid, parseNodeID args = Except.ok nid → lookupNode nodes nid = none →
        handleGetNode nodes args = Except.error (CmdError.nodeNotFound nid) ∧
          handlePingNode nodes args = Except.error (CmdError.nodeNotFound nid)) ∧
      (handlePingNode nodes args = Except.ok pingReachable ↔
        ∃ nid, parseNodeID args = Except.ok nid ∧ (lookupNode nodes nid).isSome) := by
  refine ⟨?_, ?_, ?_, ?_⟩
  · intro h
    simp [parseNodeID, h]
  · intro e he
    simp [handleGetNode, handlePingNode, he]
  · intro nid h1 h2
    simp [handleGetNode, handlePingNode, h1, h2]
  · constructor
    · intro h
      cases hp : parseNodeID args with
      | error e => simp [handlePingNode, hp] at h
      | ok nid =>
        cases hl : lookupNode nodes nid with
        | none => simp [handlePingNode, hp, hl] at h
        | some n => exact ⟨nid, rfl, by simp [hl]⟩
    · rintro ⟨nid, h1, h2⟩
      cases hl : lookupNode nodes nid with
      | none => simp [hl] at h2
      | some n => simp [handlePingNode, h1, hl]

/-- A stored node whose attributes map is heap object 0. -/
def demoNode : MatterNodeData :=
  { NodeID := 5, DateCommissioned := 1700000000, LastInterview := 1700000100,
    InterviewVersion := 6, Available := true, IsBridge := false,
    Attributes := 0, AttributeSubscriptions := 0 }

/-- The in-memory registry holding node 5. -/
def demoNodes : List (Int × MatterNodeData) := [(5, demoNode)]

/-- Witness for C6: a missing `node_id` errors, an unknown id 7 gets
not-found from `get_node`, and `ping_node` on the present id 5 answers
`reachable: true`. -/
theorem node_commands_spec_witness :
    parseNodeID [] = Except.error CmdError.missingNodeID ∧
      handleGetNode demoNodes [(keyNodeID, GoValue.goInt 7)]
          = Except.error (CmdError.nodeNotFound 7) ∧
      handlePingNode demoNodes [(keyNodeID, GoValue.goInt 5)] = Except.ok pingReachable := by
  refine ⟨?_, ?_, ?_⟩
  · exact (node_commands_spec [] demoNodes).1 rfl
  · exact ((node_commands_spec [(keyNodeID, GoValue.goInt 7)] demoNodes).2.2.1 7 rfl rfl).1
  · exact ((node_commands_spec [(keyNodeID, GoValue.goInt 5)] demoNodes).2.2.2).mpr
      ⟨5, rfl, by decide⟩

/-- C10: a fractional float64 `node_id` is accepted, not rejected: for every
rational (the exact float value) it parses to the truncation toward zero, so
1.9 (the rational 19/10) parses to 1 and `get_node`/`ping_node` treat 1.9 and 1 as the same
identifier. -/
theorem parseNodeID_float_truncates (q : ℚ) (nodes : List (Int × MatterNodeData)) :
    parseNodeID [(keyNodeID, GoValue.float64 q)] = Except.ok (goTruncToInt q) ∧
      goTruncToInt (mkRat 19 10) = 1 ∧
      handleGetNode nodes [(keyNodeID, GoValue.float64 (mkRat 19 10))]
          = handleGetNode nodes [(keyNodeID, GoValue.goInt 1)] ∧
      handlePingNode nodes [(keyNodeID, GoValue.float64 (mkRat 19 10))]
          = handlePingNode nodes [(keyNodeID, GoValue.goInt 1)] := by
  have hp : parseNodeID [(keyNodeID, GoValue.float64 (mkRat 19 10))] = Except.ok 1 := by
    rfl
  have hp2 : parseNodeID [(keyNodeID, GoValue.goInt 1)] = Except.ok 1 := rfl
  refine ⟨rfl, by decide, ?_, ?_⟩
  · simp [handleGetNode, hp, hp2]
  · simp [handlePingNode, hp, hp2]

/-- The heap: object 0 is the attributes map of the stored node, holding
`vendor ↦ 1`. -/
def demoHeap : AttrHeap :=
  { maps := [(0, [([118, 101, 110, 100, 111, 114], AttrValue.num 1)])] }

/-- C8: the claim that node lookups return independent copies is FALSE for
the open-ended attributes map: `get_node` returns the shallow copy
`goCopyNode`, whose `Attributes` field is the same map reference as the
registry's record, so writing `vendor ↦ 2` through the returned copy
changes what the registry's stored node dereferences. -/
theorem get_node_shallow_copy_aliases :
    handleGetNode demoNodes [(keyNodeID, GoValue.goInt 5)]
        = Except.ok (goCopyNode demoNode) ∧
      (goCopyNode demoNode).Attributes = demoNode.Attributes ∧
      heapRead
          (heapWrite demoHeap (goCopyNode demoNode).Attributes
            [118, 101, 110, 100, 111, 114] (AttrValue.num 2))
          demoNode.Attributes
        ≠ heapRead demoHeap demoNode.Attributes := by
  refine ⟨rfl, rfl, by decide⟩

end GoMatterServer
